import Mathlib

/-!
# Verification of the scrabble_jp game-session engine

Shallow embedding of the server-side core of a Japanese Scrabble
implementation: the tile definitions and tile bag (`TileBag.ts` /
`tiles.ts`), the bonus layout (`board.ts`), the placement validator
(`BoardValidator.ts`), the game session (`Game.ts`) and the room /
reconnection lifecycle (`Room.ts`).  TypeScript arrays become `List`s,
`Map`s become association lookups with JavaScript's last-entry-wins
semantics, exceptions become explicit error results, `Math.random`
becomes an explicit seed parameter, and timers become explicit events.
-/

namespace ScrabbleJp

/-! ## Shared protocol types (shared/src/protocol.ts) -/

/-- `Tile` from protocol.ts.  `assignedChar = none` models an absent
optional field; `char = ""` denotes a blank. -/
structure Tile where
  id : Nat
  char : String
  points : Nat
  isBlank : Bool
  assignedChar : Option String := none
deriving Repr, DecidableEq

/-- `TilePlacement` from protocol.ts.  Coordinates are natural numbers;
the source's `p.row < 0` bounds checks are kept verbatim (they are
vacuous over `Nat`). -/
structure TilePlacement where
  row : Nat
  col : Nat
  tileId : Nat
  assignedChar : Option String := none
deriving Repr, DecidableEq

inductive BonusType where
  | NONE | DL | TL | DW | TW | START
deriving Repr, DecidableEq

inductive GamePhase where
  | waiting | playing | finished
deriving Repr, DecidableEq

inductive TurnAction where
  | play | exchange | pass
deriving Repr, DecidableEq

structure WordResult where
  word : String
  score : Nat
deriving Repr, DecidableEq

structure TurnRecord where
  playerId : String
  playerName : String
  action : TurnAction
  words : Option (List WordResult) := none
  totalScore : Nat
deriving Repr, DecidableEq

/-- JavaScript truthiness of an optional string: `undefined` and `""`
are falsy (`if (p.assignedChar)` in the source). -/
def truthy : Option String → Bool
  | none => false
  | some s => !s.isEmpty

/-! ## Tile definitions (server/src/tiles.ts) -/

structure TileDef where
  char : String
  points : Nat
  count : Nat
deriving Repr, DecidableEq

def TILE_DEFINITIONS : List TileDef := [
  -- 頻出文字（1点）
  ⟨"い", 1, 5⟩, ⟨"う", 1, 5⟩, ⟨"か", 1, 4⟩, ⟨"し", 1, 4⟩,
  ⟨"た", 1, 4⟩, ⟨"て", 1, 4⟩, ⟨"の", 1, 4⟩, ⟨"に", 1, 4⟩,
  ⟨"は", 1, 3⟩, ⟨"ん", 1, 3⟩, ⟨"く", 1, 3⟩, ⟨"こ", 1, 3⟩,
  ⟨"と", 1, 3⟩, ⟨"な", 1, 3⟩, ⟨"り", 1, 3⟩, ⟨"る", 1, 3⟩,
  -- 一般文字（2点）
  ⟨"き", 2, 3⟩, ⟨"あ", 2, 3⟩, ⟨"お", 2, 3⟩, ⟨"け", 2, 2⟩,
  ⟨"さ", 2, 2⟩, ⟨"す", 2, 2⟩, ⟨"せ", 2, 2⟩, ⟨"そ", 2, 2⟩,
  ⟨"ち", 2, 2⟩, ⟨"つ", 2, 2⟩, ⟨"ま", 2, 2⟩, ⟨"み", 2, 2⟩,
  ⟨"も", 2, 2⟩, ⟨"よ", 2, 2⟩, ⟨"え", 2, 2⟩, ⟨"れ", 2, 2⟩,
  -- やや少ない（3点）
  ⟨"わ", 3, 2⟩, ⟨"ふ", 3, 2⟩, ⟨"ら", 3, 2⟩, ⟨"む", 3, 1⟩,
  ⟨"め", 3, 1⟩, ⟨"ろ", 3, 1⟩, ⟨"ー", 3, 2⟩,
  -- 少ない（4点）
  ⟨"ぬ", 4, 1⟩, ⟨"ね", 4, 1⟩, ⟨"ひ", 4, 1⟩, ⟨"ほ", 4, 1⟩,
  ⟨"や", 4, 1⟩, ⟨"ゆ", 4, 1⟩,
  -- ブランク（0点）
  ⟨"", 0, 2⟩]

def RACK_SIZE : Nat := 7
def BOARD_SIZE : Nat := 15
def BINGO_BONUS : Nat := 50

/-! ## TileBag (server/src/TileBag.ts)

The bag's mutable `tiles` array is threaded explicitly as a `List Tile`;
`Math.random` is replaced by a seed list of naturals consumed by the
Fisher–Yates loop. -/

/-- The tile list materialised by `TileBag.init` before shuffling:
for each definition, `count` copies with sequential ids (`nextId++`). -/
def initTilesAux : List TileDef → Nat → List Tile
  | [], _ => []
  | d :: rest, nextId =>
    ((List.range d.count).map fun i =>
      Tile.mk (nextId + i) d.char d.points (d.char == "") none)
      ++ initTilesAux rest (nextId + d.count)

def initTiles : List Tile := initTilesAux TILE_DEFINITIONS 0

/-- One Fisher–Yates swap `[tiles[i], tiles[j]] = [tiles[j], tiles[i]]`. -/
def swapIdx (l : List Tile) (i j : Nat) : List Tile :=
  match l.get? i, l.get? j with
  | some a, some b => (l.set i b).set j a
  | _, _ => l

/-- The `shuffle` loop: `for (i = len-1; i > 0; i--) { j = rand(i+1); swap }`.
`i` counts down; `seed` supplies each `Math.floor(Math.random()*(i+1))`
as `seed-value % (i+1)`. -/
def shuffleAux (l : List Tile) (seed : List Nat) : Nat → List Tile
  | 0 => l
  | i + 1 =>
    let j := (seed.headD 0) % (i + 2)
    shuffleAux (swapIdx l (i + 1) j) (seed.tail) i

def shuffle (seed : List Nat) (l : List Tile) : List Tile :=
  match l.length with
  | 0 => l
  | n + 1 => shuffleAux l seed n

/-- A freshly constructed bag (`new TileBag()`): init then shuffle. -/
def TileBag.fresh (seed : List Nat) : List Tile :=
  shuffle seed initTiles

/-- `draw(count)`: `splice(0, Math.min(count, tiles.length))`.
Returns (drawn, remaining bag). -/
def draw (tiles : List Tile) (count : Nat) : List Tile × List Tile :=
  (tiles.take (min count tiles.length), tiles.drop (min count tiles.length))

/-- `drawToFill(currentCount)`: `needed = RACK_SIZE - currentCount`
(`Int` in the source; `if (needed <= 0) return []`). -/
def drawToFill (tiles : List Tile) (currentCount : Nat) : List Tile × List Tile :=
  let needed : Int := (RACK_SIZE : Int) - (currentCount : Int)
  if needed ≤ 0 then ([], tiles)
  else draw tiles needed.toNat

/-- Errors thrown by the engine; constructors correspond one-to-one to
the distinct `throw new Error(...)` sites of the source. -/
inductive GameError where
  | emptyPlacement          -- タイルを配置してください
  | tileNotInRack           -- ラックにないタイルです
  | outOfBounds             -- 盤面の範囲外です
  | cellOccupied (row col : Nat)  -- (r,c)には既にタイルがあります
  | blankNeedsChar          -- ブランクタイルに文字を指定してください
  | notCollinear            -- タイルは一直線に配置してください
  | gapInPlacement          -- タイルの間に隙間があります
  | firstMoveCenter         -- 最初の手は中央マスを通る必要があります
  | firstMoveTooShort       -- 最初の手は2文字以上必要です
  | notAdjacent             -- 既存のタイルに隣接させてください
  | noWordFormed            -- 有効な単語が形成されていません
  | unknownWord (w : String) -- 「w」は辞書にありません
  | notPlaying              -- ゲームが開始されていません
  | notYourTurn             -- あなたの番ではありません
  | emptyExchange           -- 交換するタイルを選択してください
  | poolTooSmall            -- 袋のタイルが足りません
  | cannotJoinNow           -- ゲーム中は参加できません
  | roomFull                -- 最大4人です
  | alreadyJoined           -- 既に参加しています
  | tooFewPlayers           -- 2人以上必要です
deriving Repr, DecidableEq

/-- `TileBag.exchange`: check the pool size, draw replacements, reset
any returned blank's assigned character, append returns to the bag,
then reshuffle.  Returns (drawn tiles, new bag). -/
def TileBag.exchange (seed : List Nat) (tiles : List Tile)
    (tilesToReturn : List Tile) : Except GameError (List Tile × List Tile) :=
  if tiles.length < tilesToReturn.length then
    .error .poolTooSmall
  else
    let (drawn, rest) := draw tiles tilesToReturn.length
    let returned := tilesToReturn.map fun t =>
      if t.isBlank then { t with assignedChar := none } else t
    .ok (drawn, shuffle seed (rest ++ returned))

/-! ## Bonus layout (server/src/board.ts) -/

structure BonusPosition where
  row : Nat
  col : Nat
  type : BonusType
deriving Repr, DecidableEq

def BONUS_POSITIONS : List BonusPosition := [
  -- TW (Triple Word)
  ⟨0, 0, .TW⟩, ⟨0, 7, .TW⟩, ⟨7, 0, .TW⟩,
  -- DW (Double Word)
  ⟨1, 1, .DW⟩, ⟨2, 2, .DW⟩, ⟨3, 3, .DW⟩, ⟨4, 4, .DW⟩,
  -- TL (Triple Letter)
  ⟨1, 5, .TL⟩, ⟨5, 1, .TL⟩, ⟨5, 5, .TL⟩,
  -- DL (Double Letter)
  ⟨0, 3, .DL⟩, ⟨3, 0, .DL⟩, ⟨2, 6, .DL⟩, ⟨6, 2, .DL⟩,
  ⟨6, 6, .DL⟩, ⟨3, 7, .DL⟩, ⟨7, 3, .DL⟩,
  -- START
  ⟨7, 7, .START⟩]

/-- `mirrorPositions`: the 8 reflections of a seed cell, deduplicated
in first-appearance order. -/
def mirrorPositions (row col : Nat) : List (Nat × Nat) :=
  let maxIdx := BOARD_SIZE - 1
  ([(row, col), (row, maxIdx - col), (maxIdx - row, col),
    (maxIdx - row, maxIdx - col), (col, row), (col, maxIdx - row),
    (maxIdx - col, row), (maxIdx - col, maxIdx - row)]).foldl
    (fun acc rc => if rc ∈ acc then acc else acc ++ [rc]) []

abbrev BonusLayout := List (List BonusType)

def bonusAt (layout : BonusLayout) (row col : Nat) : BonusType :=
  ((layout.get? row).bind (fun r => r.get? col)).getD .NONE

/-- `createBonusLayout`: start all-`NONE`, then for each seed apply its
mirrored images, a later kind overwriting only if the cell is still
`NONE` or the new kind is `START`. -/
def createBonusLayout : BonusLayout :=
  BONUS_POSITIONS.foldl
    (fun layout bp =>
      (mirrorPositions bp.row bp.col).foldl
        (fun ly (rc : Nat × Nat) =>
          if bonusAt ly rc.1 rc.2 = .NONE ∨ bp.type = .START then
            ly.set rc.1 (((ly.get? rc.1).getD []).set rc.2 bp.type)
          else ly)
        layout)
    (List.replicate BOARD_SIZE (List.replicate BOARD_SIZE BonusType.NONE))

/-! ## Board and placement validation (server/src/BoardValidator.ts) -/

/-- `(Tile | null)[][]`: a cell holds `some t` or `none` (null). -/
abbrev Board := List (List (Option Tile))

def emptyBoard : Board :=
  List.replicate BOARD_SIZE (List.replicate BOARD_SIZE (none : Option Tile))

/-- `board[r][c]`.  Both out-of-range access (`undefined`) and an empty
cell (`null`) read as `none`; every access in the source is guarded by
a bounds check, so the conflation is unobservable. -/
def cellAt (board : Board) (row col : Nat) : Option Tile :=
  (((board.get? row).map (fun r => r.get? col)).getD none).getD none

def setCell (board : Board) (row col : Nat) (t : Option Tile) : Board :=
  board.set row (((board.get? row).getD []).set col t)

structure PlacedTile where
  tile : Tile
  row : Nat
  col : Nat
deriving Repr, DecidableEq

structure WordTile where
  tile : Tile
  row : Nat
  col : Nat
  isNew : Bool
deriving Repr, DecidableEq

structure WordFound where
  word : String
  tiles : List WordTile
deriving Repr, DecidableEq

/-- Lookup in `rackMap = new Map(rack.map(t => [t.id, t]))`.
A JavaScript `Map` built from entries keeps the *last* entry for a
duplicated key, hence the reversed search. -/
def rackLookup (rack : List Tile) (tileId : Nat) : Option Tile :=
  rack.reverse.find? (fun t => t.id == tileId)

/-- First loop of `validate`: per placement, in order — rack lookup,
bounds check, occupied-cell check, blank assigned-character check —
accumulating the placed-tile copies. -/
def resolvePlacements (board : Board) (rackTiles : List Tile) :
    List TilePlacement → Except GameError (List PlacedTile)
  | [] => .ok []
  | p :: rest =>
    match rackLookup rackTiles p.tileId with
    | none => .error .tileNotInRack
    | some tile =>
      if p.row < 0 ∨ BOARD_SIZE ≤ p.row ∨ p.col < 0 ∨ BOARD_SIZE ≤ p.col then
        .error .outOfBounds
      else if cellAt board p.row p.col ≠ none then
        .error (.cellOccupied p.row p.col)
      else
        let checkBlank : Except GameError Tile :=
          if tile.isBlank then
            if !(truthy p.assignedChar) then .error .blankNeedsChar
            else .ok { tile with assignedChar := p.assignedChar }
          else .ok tile
        match checkBlank with
        | .error e => .error e
        | .ok placedTile =>
          match resolvePlacements board rackTiles rest with
          | .error e => .error e
          | .ok tl => .ok (⟨placedTile, p.row, p.col⟩ :: tl)

/-- `new Set(...)` of coordinates: membership test for "newly placed". -/
def posMem (positions : List (Nat × Nat)) (row col : Nat) : Bool :=
  positions.any (fun rc => rc.1 == row && rc.2 == col)

/-- Gap check: every cell in `[lo, hi]` along the play line must be
occupied on the provisional board. -/
def gapCheckH (tempBoard : Board) (row lo hi : Nat) : Except GameError Unit :=
  if ((List.range' lo (hi + 1 - lo)).all
      (fun c => cellAt tempBoard row c ≠ none)) then .ok ()
  else .error .gapInPlacement

def gapCheckV (tempBoard : Board) (col lo hi : Nat) : Except GameError Unit :=
  if ((List.range' lo (hi + 1 - lo)).all
      (fun r => cellAt tempBoard r col ≠ none)) then .ok ()
  else .error .gapInPlacement

/-- `getWordAt` backward walk: step `(−dr, −dc)` while in range and the
cell is occupied.  Fuel is the board side, which bounds any run. -/
def walkBack (board : Board) (dr dc : Nat) : Nat → Nat × Nat → Nat × Nat
  | 0, rc => rc
  | fuel + 1, (r, c) =>
    if dr ≤ r ∧ dc ≤ c ∧ cellAt board (r - dr) (c - dc) ≠ none then
      walkBack board dr dc fuel (r - dr, c - dc)
    else (r, c)

/-- `getWordAt` forward collection: gather tiles while in range and
occupied. -/
def collectRun (board : Board) (dr dc : Nat) (newPositions : List (Nat × Nat)) :
    Nat → Nat × Nat → List WordTile
  | 0, _ => []
  | fuel + 1, (r, c) =>
    if r < BOARD_SIZE ∧ c < BOARD_SIZE then
      match cellAt board r c with
      | none => []
      | some tile =>
        ⟨tile, r, c, posMem newPositions r c⟩ ::
          collectRun board dr dc newPositions fuel (r + dr, c + dc)
    else []

/-- Word text: each tile's assigned character when it is a blank with
one, else its base character. -/
def wordText (tiles : List WordTile) : String :=
  tiles.foldl
    (fun acc wt =>
      acc ++ (match wt.tile.isBlank, wt.tile.assignedChar with
              | true, some ch => ch
              | _, _ => wt.tile.char))
    ""

/-- `getWordAt`: walk to the run's start, collect the run, and report a
word only if it has length ≥ 2. -/
def getWordAt (board : Board) (row col : Nat) (dr dc : Nat)
    (newPositions : List (Nat × Nat)) : Option WordFound :=
  let start := walkBack board dr dc BOARD_SIZE (row, col)
  let tiles := collectRun board dr dc newPositions BOARD_SIZE start
  if tiles.length < 2 then none
  else some ⟨wordText tiles, tiles⟩

/-- A dedup key `"h:r,c"` / `"v:r,c"` is modelled structurally as
(isHorizontal, row, col). -/
abbrev WordKey := Bool × Nat × Nat

/-- `extractWords`: for each placed tile, the horizontal and vertical
runs through it, deduplicated by run start. -/
def extractWords (board : Board) (placedTiles : List PlacedTile)
    (newPositions : List (Nat × Nat)) : List WordFound :=
  (placedTiles.foldl
    (fun (acc : List WordFound × List WordKey) pt =>
      let (words, checked) := acc
      let afterH :=
        match getWordAt board pt.row pt.col 0 1 newPositions with
        | some hWord =>
          match hWord.tiles.head? with
          | some t0 =>
            let key : WordKey := (true, t0.row, t0.col)
            if key ∈ checked then (words, checked)
            else (words ++ [hWord], checked ++ [key])
          | none => (words, checked)
        | none => (words, checked)
      match getWordAt board pt.row pt.col 1 0 newPositions with
      | some vWord =>
        match vWord.tiles.head? with
        | some t0 =>
          let key : WordKey := (false, t0.row, t0.col)
          if key ∈ afterH.2 then afterH
          else (afterH.1 ++ [vWord], afterH.2 ++ [key])
        | none => afterH
      | none => afterH)
    ([], [])).1

/-- First-move / adjacency rule: on the first move the centre cell must
be covered and at least two tiles placed; otherwise some placement must
be orthogonally adjacent (on the original board) to an existing tile. -/
def moveCheck (board : Board) (placedTiles : List PlacedTile)
    (isFirstMove : Bool) : Except GameError Unit :=
  if isFirstMove then
    let center := BOARD_SIZE / 2
    if ¬(placedTiles.any fun t => t.row == center && t.col == center) then
      .error .firstMoveCenter
    else if placedTiles.length < 2 then .error .firstMoveTooShort
    else .ok ()
  else
    let adjacent := placedTiles.any fun pt =>
      ([((0:Int), (1:Int)), (0, -1), (1, 0), (-1, 0)]).any fun d =>
        let nr : Int := (pt.row : Int) + d.1
        let nc : Int := (pt.col : Int) + d.2
        if nr < 0 ∨ (BOARD_SIZE : Int) ≤ nr ∨ nc < 0 ∨ (BOARD_SIZE : Int) ≤ nc
        then false
        else cellAt board nr.toNat nc.toNat ≠ none  -- 元の盤面
    if ¬adjacent then .error .notAdjacent else .ok ()

/-- Word extraction result check plus the dictionary membership test:
no word at all is an error, and the first word missing from the oracle
aborts with `unknownWord`. -/
def lexicalCheck (dict : String → Bool) (words : List WordFound) :
    Except GameError (List WordFound) :=
  if words.length = 0 then .error .noWordFormed
  else
    match words.find? (fun w : WordFound => !(dict w.word)) with
    | some w => .error (.unknownWord w.word)
    | none => .ok words

/-- `BoardValidator.validate`.  The dictionary is the external word
oracle, passed as a membership function. -/
def validate (dict : String → Bool) (board : Board)
    (placements : List TilePlacement) (rackTiles : List Tile)
    (isFirstMove : Bool) : Except GameError (List WordFound) :=
  if placements.length = 0 then .error .emptyPlacement else
  match resolvePlacements board rackTiles placements with
  | .error e => .error e
  | .ok placedTiles =>
    -- 全て同じ行 or 同じ列であることを確認 (Set sizes)
    let rows := (placedTiles.map (fun t : PlacedTile => t.row)).dedup
    let cols := (placedTiles.map (fun t : PlacedTile => t.col)).dedup
    let isHorizontal := rows.length = 1
    let isVertical := cols.length = 1
    if ¬isHorizontal ∧ ¬isVertical then .error .notCollinear else
    -- 仮盤面
    let tempBoard := placedTiles.foldl
      (fun b pt => setCell b pt.row pt.col (some pt.tile)) board
    let newPositions := placedTiles.map (fun pt => (pt.row, pt.col))
    -- 配置間にギャップがないことを確認
    let gapResult :=
      if isHorizontal then
        match placedTiles.head? with
        | some pt0 =>
          gapCheckH tempBoard pt0.row
            ((placedTiles.map (fun t : PlacedTile => t.col)).foldr min pt0.col)
            ((placedTiles.map (fun t : PlacedTile => t.col)).foldr max pt0.col)
        | none => .ok ()
      else
        match placedTiles.head? with
        | some pt0 =>
          gapCheckV tempBoard pt0.col
            ((placedTiles.map (fun t : PlacedTile => t.row)).foldr min pt0.row)
            ((placedTiles.map (fun t : PlacedTile => t.row)).foldr max pt0.row)
        | none => .ok ()
    match gapResult with
    | .error e => .error e
    | .ok _ =>
      -- 初手は中央マスを通ること / 既存タイルに隣接していること
      match moveCheck board placedTiles isFirstMove with
      | .error e => .error e
      | .ok _ =>
        -- 単語を抽出して辞書チェック
        lexicalCheck dict (extractWords tempBoard placedTiles newPositions)

/-! ## Game session (server/src/Game.ts)

Mutable session state is threaded explicitly.  The turn deadline and
its timer are real-time artefacts and are not part of the state model;
`forcePass` models the timer callback's body as an event.  Functions
that can `throw` return a `StResult`, whose `err` constructor carries
the state as it stands at the throw site, so that unchanged-state
theorems say something about the source's mutation ordering. -/

structure Player where
  id : String
  name : String
  score : Int
  rack : List Tile
  connected : Bool
deriving Repr, DecidableEq

structure Game where
  board : Board
  bonusLayout : BonusLayout
  players : List Player
  currentPlayerIndex : Nat
  tileBag : List Tile
  turnHistory : List TurnRecord
  phase : GamePhase
  consecutivePasses : Nat
  isFirstMove : Bool
deriving Repr, DecidableEq

/-- Result of a fallible session operation: `err` carries the session
state at the moment of the throw. -/
inductive StResult (α : Type) where
  | ok (g : Game) (a : α)
  | err (e : GameError) (g : Game)
deriving Repr, DecidableEq

/-- `new Game(dictionary)`: empty board, generated bonus layout, fresh
shuffled bag. -/
def Game.new (seed : List Nat) : Game :=
  { board := emptyBoard
    bonusLayout := createBonusLayout
    players := []
    currentPlayerIndex := 0
    tileBag := TileBag.fresh seed
    turnHistory := []
    phase := .waiting
    consecutivePasses := 0
    isFirstMove := true }

def Game.currentPlayerId (g : Game) : String :=
  ((g.players.get? g.currentPlayerIndex).map (fun p => p.id)).getD ""

/-- `assertTurn`: phase and turn-ownership checks, in source order. -/
def Game.assertTurn (g : Game) (playerId : String) : Option GameError :=
  if g.phase ≠ .playing then some .notPlaying
  else if g.currentPlayerId ≠ playerId then some .notYourTurn
  else none

def Game.addPlayer (g : Game) (id name : String) : StResult Unit :=
  if g.phase ≠ .waiting then .err .cannotJoinNow g
  else if 4 ≤ g.players.length then .err .roomFull g
  else if g.players.any (fun p => p.id == id) then .err .alreadyJoined g
  else .ok { g with players := g.players ++ [⟨id, name, 0, [], true⟩] } ()

def Game.removePlayer (g : Game) (id : String) : Game :=
  { g with players := g.players.filter (fun p => !(p.id == id)) }

def setConnectedAux (l : List Player) (id : String) (c : Bool) : List Player :=
  match l with
  | [] => []
  | p :: rest =>
    if p.id == id then { p with connected := c } :: rest
    else p :: setConnectedAux rest id c

/-- `setConnected`: `players.find(...)` then mutate — only the first
matching player is touched. -/
def Game.setConnected (g : Game) (id : String) (c : Bool) : Game :=
  { g with players := setConnectedAux g.players id c }

/-- `start`: requires ≥2 players (and nothing else — no phase check);
every rack is replaced by `RACK_SIZE` tiles drawn in player order. -/
def fillRacks (players : List Player) (bag : List Tile) :
    List Player × List Tile :=
  match players with
  | [] => ([], bag)
  | p :: rest =>
    let (drawn, bag') := draw bag RACK_SIZE
    let (rest', bag'') := fillRacks rest bag'
    ({ p with rack := drawn } :: rest', bag'')

def Game.start (g : Game) : StResult Unit :=
  if g.players.length < 2 then .err .tooFewPlayers g
  else
    let (players', bag') := fillRacks g.players g.tileBag
    .ok { g with phase := .playing, players := players', tileBag := bag' } ()

/-- `advanceTurn` (the timer re-arm is not modelled). -/
def Game.advanceTurn (g : Game) : Game :=
  if g.phase ≠ .playing then g
  else { g with currentPlayerIndex := (g.currentPlayerIndex + 1) % g.players.length }

/-- `endGame`: freeze the phase and subtract each player's remaining
rack points from their score. -/
def Game.endGame (g : Game) : Game :=
  { g with
    phase := .finished
    players := g.players.map fun p =>
      { p with score := p.score - ((p.rack.map (fun t => t.points)).sum : Int) } }

def Game.checkGameEnd (g : Game) : Game :=
  if g.players.length * 2 ≤ g.consecutivePasses then g.endGame
  else if (g.players.any fun p => p.rack.length == 0) ∧ g.tileBag.length = 0 then
    g.endGame
  else g

/-- Body of the inner scoring loop in `playTiles`: accumulate a tile's
letter contribution into `acc.1` (the word's running sum) and any word
multiplier into `acc.2`. -/
def scoreStep (layout : BonusLayout) (acc : Nat × Nat) (wt : WordTile) : Nat × Nat :=
  let tilePoints := if wt.tile.isBlank then 0 else wt.tile.points
  if wt.isNew then
    match bonusAt layout wt.row wt.col with
    | .DL => (acc.1 + tilePoints * 2, acc.2)
    | .TL => (acc.1 + tilePoints * 3, acc.2)
    | .DW => (acc.1 + tilePoints, acc.2 * 2)
    | .START => (acc.1 + tilePoints, acc.2 * 2)
    | .TW => (acc.1 + tilePoints, acc.2 * 3)
    | .NONE => (acc.1 + tilePoints, acc.2)
  else (acc.1 + tilePoints, acc.2)

/-- Inner scoring loop: `wordScore`/`wordMultiplier` over one word,
starting from `(0, 1)`. -/
def scoreWordTiles (layout : BonusLayout) (tiles : List WordTile) : Nat × Nat :=
  tiles.foldl (scoreStep layout) (0, 1)

/-- Body of the outer scoring loop: finish one word (`wordScore *=
wordMultiplier`), record its result, add into the turn total. -/
def scoreWordsStep (layout : BonusLayout) (acc : List WordResult × Nat)
    (wf : WordFound) : List WordResult × Nat :=
  let p := scoreWordTiles layout wf.tiles
  let wordScore := p.1 * p.2
  (acc.1 ++ [⟨wf.word, wordScore⟩], acc.2 + wordScore)

/-- The scoring loop of `playTiles`: per-word results plus the running
total (before the all-tiles bonus). -/
def scoreWords (layout : BonusLayout) (wordsFound : List WordFound) :
    List WordResult × Nat :=
  wordsFound.foldl (scoreWordsStep layout) ([], 0)

structure PlayResult where
  words : List WordResult
  totalScore : Nat
deriving Repr, DecidableEq

def Game.playTiles (dict : String → Bool) (g : Game) (playerId : String)
    (placements : List TilePlacement) : StResult PlayResult :=
  match g.assertTurn playerId with
  | some e => .err e g
  | none =>
    match g.players.get? g.currentPlayerIndex with
    | none => .err .notYourTurn g
      -- unreachable: `playing` implies a current player (TS crashes here)
    | some player =>
      match validate dict g.board placements player.rack g.isFirstMove with
      | .error e => .err e g
      | .ok wordsFound =>
        let scored := scoreWords g.bonusLayout wordsFound
        let totalScore :=
          scored.2 + (if placements.length = RACK_SIZE then BINGO_BONUS else 0)
        -- commit: write placed tiles onto the board
        let board' := placements.foldl
          (fun b p =>
            match rackLookup player.rack p.tileId with
            | some tile =>
              let placed :=
                if truthy p.assignedChar then
                  { tile with assignedChar := p.assignedChar }
                else tile
              setCell b p.row p.col (some placed)
            | none => b)  -- unreachable: validate checked rack membership
          g.board
        let usedIds := placements.map (fun p => p.tileId)
        let rack1 := player.rack.filter (fun t => !(usedIds.contains t.id))
        let fill := drawToFill g.tileBag rack1.length
        let player' := { player with
          rack := rack1 ++ fill.1
          score := player.score + (totalScore : Int) }
        let g1 := { g with
          board := board'
          players := g.players.set g.currentPlayerIndex player'
          tileBag := fill.2
          isFirstMove := false
          consecutivePasses := 0
          turnHistory := g.turnHistory ++
            [TurnRecord.mk player.id player.name .play (some scored.1) totalScore] }
        .ok (g1.advanceTurn.checkGameEnd) ⟨scored.1, totalScore⟩

/-- The tile-collection loop of `exchangeTiles`: the first id missing
from the rack aborts. -/
def collectExchange (rack : List Tile) : List Nat → Except GameError (List Tile)
  | [] => .ok []
  | id :: rest =>
    match rack.find? (fun t => t.id == id) with
    | none => .error .tileNotInRack
    | some tile =>
      match collectExchange rack rest with
      | .error e => .error e
      | .ok tl => .ok (tile :: tl)

def Game.exchangeTiles (seed : List Nat) (g : Game) (playerId : String)
    (tileIds : List Nat) : StResult Unit :=
  match g.assertTurn playerId with
  | some e => .err e g
  | none =>
    if tileIds.length = 0 then .err .emptyExchange g
    else if g.tileBag.length < tileIds.length then .err .poolTooSmall g
    else
      match g.players.get? g.currentPlayerIndex with
      | none => .err .notYourTurn g  -- unreachable, as in playTiles
      | some player =>
        match collectExchange player.rack tileIds with
        | .error e => .err e g
        | .ok tilesToExchange =>
          match TileBag.exchange seed g.tileBag tilesToExchange with
          | .error e => .err e g  -- unreachable: pool size already checked
          | .ok (newTiles, bag') =>
            let player' := { player with
              rack := (player.rack.filter fun t : Tile => !(tileIds.contains t.id))
                        ++ newTiles }
            let g1 := { g with
              players := g.players.set g.currentPlayerIndex player'
              tileBag := bag'
              consecutivePasses := 0
              turnHistory := g.turnHistory ++
                [TurnRecord.mk player.id player.name .exchange none 0] }
            .ok g1.advanceTurn ()

def Game.pass (g : Game) (playerId : String) : StResult Unit :=
  match g.assertTurn playerId with
  | some e => .err e g
  | none =>
    match g.players.get? g.currentPlayerIndex with
    | none => .err .notYourTurn g  -- unreachable, as in playTiles
    | some player =>
      let g1 := { g with
        consecutivePasses := g.consecutivePasses + 1
        turnHistory := g.turnHistory ++
          [TurnRecord.mk player.id player.name .pass none 0] }
      .ok (g1.advanceTurn.checkGameEnd) ()

/-- `forcePass`: the deadline callback — a pass that skips `assertTurn`. -/
def Game.forcePass (g : Game) : Game :=
  match g.players.get? g.currentPlayerIndex with
  | none => g  -- unreachable while the timer is armed
  | some player =>
    let g1 := { g with
      consecutivePasses := g.consecutivePasses + 1
      turnHistory := g.turnHistory ++
        [TurnRecord.mk player.id player.name .pass none 0] }
    g1.advanceTurn.checkGameEnd

/-! ## Room & reconnection lifecycle (server/src/Room.ts)

WebSocket handles are outside the model; a `RoomPlayer` keeps only the
identity data plus whether a reconnection grace timer is armed.  The
grace timer's callback is modelled by `fireGraceTimer`; the `onTimeout`
caller notification is returned as a `Bool`. -/

structure RoomPlayer where
  id : String
  name : String
  reconnectTimerArmed : Bool
deriving Repr, DecidableEq

structure Room where
  players : List RoomPlayer
  hostId : String
  game : Game
deriving Repr, DecidableEq

/-- `removePlayer`: clear any grace timer, drop the player from the
room's map, and remove the session seat only while `waiting`. -/
def Room.removePlayer (room : Room) (id : String) : Room :=
  let players' := room.players.filter (fun p => !(p.id == id))
  if room.game.phase = .waiting then
    { room with players := players', game := room.game.removePlayer id }
  else
    { room with players := players' }

/-- `reconnectPlayer`: on a known id, cancel the grace timer,
re-associate the connection and mark the player connected.  Returns
the source's boolean result. -/
def Room.reconnectPlayer (room : Room) (id : String) : Room × Bool :=
  match room.players.find? (fun p => p.id == id) with
  | none => (room, false)
  | some _ =>
    let players' := room.players.map fun p =>
      if p.id == id then { p with reconnectTimerArmed := false } else p
    ({ room with players := players', game := room.game.setConnected id true },
     true)

/-- `handleDisconnect`: mark disconnected; while `playing` arm the
grace timer, otherwise remove immediately and notify (`Bool` result is
whether `onTimeout` ran). -/
def Room.handleDisconnect (room : Room) (id : String) : Room × Bool :=
  match room.players.find? (fun p => p.id == id) with
  | none => (room, false)
  | some _ =>
    let room1 := { room with game := room.game.setConnected id false }
    if room1.game.phase = .playing then
      ({ room1 with players := room1.players.map fun p =>
          if p.id == id then { p with reconnectTimerArmed := true } else p },
       false)
    else
      (room1.removePlayer id, true)

/-- The grace timer's callback body: `removePlayer(id); onTimeout()`. -/
def Room.fireGraceTimer (room : Room) (id : String) : Room × Bool :=
  (room.removePlayer id, true)

/-! ## Observers and concrete fixtures used by the theorems -/

/-- The session state after an operation (err already carries the
state at the throw site). -/
def StResult.state : StResult α → Game
  | .ok g _ => g
  | .err _ g => g

def StResult.result? : StResult α → Option α
  | .ok _ a => some a
  | .err _ _ => none

def exceptOk? : Except GameError (List WordFound) → Bool
  | .ok _ => true
  | .error _ => false

def boardTileCount (b : Board) : Nat :=
  (b.map (fun row => (row.filter (fun c => c.isSome)).length)).sum

/-- Total number of tiles across pool, racks and board. -/
def totalTiles (g : Game) : Nat :=
  g.tileBag.length + (g.players.map (fun p => p.rack.length)).sum +
    boardTileCount g.board

/-- Seed on which the Fisher–Yates loop swaps every index with itself:
the fresh bag keeps `initTiles`'s order (one of the `N!` equally likely
outcomes of the source's shuffle). -/
def idSeed : List Nat := (List.range' 1 111).reverse

/-- Fresh session, two players joined, game started: `p1` holds the
first seven tiles (five い, two う), `p2` the next seven. -/
def gameStarted : Game :=
  (((Game.new idSeed).addPlayer "p1" "Alice").state.addPlayer "p2" "Bob").state.start.state

/-- `gameStarted` after `p1` passes: one consecutive pass on record. -/
def gamePassed : Game := (gameStarted.pass "p1").state

def player1 : Player :=
  match gameStarted.players.get? 0 with
  | some p => p
  | none => ⟨"", "", 0, [], true⟩

/-- Oracle fixtures: dictionaries holding exactly the word(s) a test
play forms. -/
def dictII : String → Bool := fun w => w == "いい"

def dictBingo : String → Bool := fun w => w == "いいいいいうう"

/-- Duplicate-cell intent: tiles 1 and 2 both target cell (7,8). -/
def dupPlacements : List TilePlacement :=
  [⟨7, 7, 0, none⟩, ⟨7, 8, 1, none⟩, ⟨7, 8, 2, none⟩]

/-- A full-rack (bingo) first move across the centre row. -/
def bingoPlacements : List TilePlacement :=
  [⟨7, 4, 0, none⟩, ⟨7, 5, 1, none⟩, ⟨7, 6, 2, none⟩, ⟨7, 7, 3, none⟩,
   ⟨7, 8, 4, none⟩, ⟨7, 9, 5, none⟩, ⟨7, 10, 6, none⟩]

def bingoPlay : StResult PlayResult :=
  Game.playTiles dictBingo gameStarted "p1" bingoPlacements

/-- The word list the validator returns for the bingo play. -/
def bingoWords : List WordFound :=
  match validate dictBingo gameStarted.board bingoPlacements player1.rack
      gameStarted.isFirstMove with
  | .ok ws => ws
  | .error _ => []

def bingoResult : PlayResult :=
  match bingoPlay with
  | .ok _ r => r
  | .err _ _ => ⟨[], 0⟩

/-- A single い tile, and a board holding one pre-existing い at the
centre, for the single-tile validation tests. -/
def loneTile : Tile := ⟨0, "い", 1, false, none⟩

def boardWithCenterTile : Board :=
  setCell emptyBoard 7 7 (some ⟨99, "い", 1, false, none⟩)

/-- A room in the `playing` phase whose participant `p2` has
disconnected (grace timer armed). -/
def roomPlaying : Room :=
  { players := [⟨"p1", "Alice", false⟩, ⟨"p2", "Bob", true⟩]
    hostId := "p1"
    game := gameStarted }

/-! ## Specification-side scoring (the wording of the scoring claim)

These definitions restate the claimed scoring rule verbatim, to be
compared against the engine's scoring loop. -/

def claimLetterMultiplier : BonusType → Nat
  | .DL => 2
  | .TL => 3
  | _ => 1

def claimWordMultiplier : BonusType → Nat
  | .DW => 2
  | .START => 2
  | .TW => 3
  | _ => 1

def claimTilePoints (t : Tile) : Nat := if t.isBlank then 0 else t.points

/-- Claimed per-word score: sum of letter contributions (letter
multiplier on newly placed tiles only, raw points otherwise) times the
product of word multipliers contributed by newly placed tiles. -/
def claimWordScore (layout : BonusLayout) (wf : WordFound) : Nat :=
  ((wf.tiles.map fun wt =>
      if wt.isNew then
        claimTilePoints wt.tile * claimLetterMultiplier (bonusAt layout wt.row wt.col)
      else claimTilePoints wt.tile).sum) *
  ((wf.tiles.map fun wt =>
      if wt.isNew then claimWordMultiplier (bonusAt layout wt.row wt.col)
      else 1).prod)

/-- The session with only one participant joined (for the start-check
tests). -/
def gameOnePlayer : Game := ((Game.new idSeed).addPlayer "p1" "Alice").state

/-- The participant whose turn it is in `gamePassed` (p2). -/
def player2 : Player :=
  match gamePassed.players.get? gamePassed.currentPlayerIndex with
  | some p => p
  | none => ⟨"", "", 0, [], true⟩

/-! ## Helper lemmas -/

theorem consSetPerm (xs : List Tile) (j : Nat) (a b : Tile)
    (hj : xs.get? j = some b) : (b :: xs.set j a).Perm (a :: xs) := by
  induction xs generalizing j with
  | nil => simp at hj
  | cons y t ih =>
    cases j with
    | zero =>
      simp only [List.get?_cons_zero, Option.some.injEq] at hj
      subst hj
      simpa using List.Perm.swap a y t
    | succ j' =>
      simp only [List.get?_cons_succ] at hj
      simp only [List.set_cons_succ]
      have h1 : (b :: y :: t.set j' a).Perm (y :: b :: t.set j' a) :=
        List.Perm.swap y b _
      have h2 : (y :: b :: t.set j' a).Perm (y :: a :: t) :=
        List.Perm.cons y (ih j' hj)
      have h3 : (y :: a :: t).Perm (a :: y :: t) := List.Perm.swap a y t
      exact (h1.trans h2).trans h3

theorem setSetPerm (l : List Tile) (i j : Nat) (a b : Tile)
    (hi : l.get? i = some a) (hj : l.get? j = some b) :
    ((l.set i b).set j a).Perm l := by
  induction l generalizing i j with
  | nil => simp at hi
  | cons x t ih =>
    cases i with
    | zero =>
      simp only [List.get?_cons_zero, Option.some.injEq] at hi
      subst hi
      cases j with
      | zero => exact List.Perm.refl _
      | succ j' =>
        simp only [List.get?_cons_succ] at hj
        simp only [List.set_cons_zero, List.set_cons_succ]
        exact consSetPerm t j' x b hj
    | succ i' =>
      simp only [List.get?_cons_succ] at hi
      cases j with
      | zero =>
        simp only [List.get?_cons_zero, Option.some.injEq] at hj
        subst hj
        simp only [List.set_cons_succ, List.set_cons_zero]
        exact consSetPerm t i' x a hi
      | succ j' =>
        simp only [List.get?_cons_succ] at hj
        simp only [List.set_cons_succ]
        exact List.Perm.cons x (ih i' j' hi hj)

theorem swapIdxPerm (l : List Tile) (i j : Nat) : (swapIdx l i j).Perm l := by
  unfold swapIdx
  cases hi : l.get? i with
  | none => exact List.Perm.refl l
  | some a =>
    cases hj : l.get? j with
    | none => exact List.Perm.refl l
    | some b => exact setSetPerm l i j a b hi hj

theorem shuffleAuxPerm (seed : List Nat) (n : Nat) :
    ∀ l : List Tile, (shuffleAux l seed n).Perm l := by
  induction n generalizing seed with
  | zero => intro l; exact List.Perm.refl l
  | succ i ih =>
    intro l
    simp only [shuffleAux]
    exact (ih seed.tail _).trans (swapIdxPerm l (i + 1) _)

theorem shufflePerm (seed : List Nat) (l : List Tile) :
    (shuffle seed l).Perm l := by
  unfold shuffle
  cases hl : l.length with
  | zero => exact List.Perm.refl l
  | succ n => exact shuffleAuxPerm seed n l

theorem resolvePlacements_length (board : Board) (rackTiles : List Tile) :
    ∀ (ps : List TilePlacement) (l : List PlacedTile),
      resolvePlacements board rackTiles ps = .ok l → l.length = ps.length := by
  intro ps
  induction ps with
  | nil =>
    intro l h
    simp only [resolvePlacements] at h
    cases h
    rfl
  | cons p rest ih =>
    intro l h
    simp only [resolvePlacements] at h
    cases hlook : rackLookup rackTiles p.tileId with
    | none => rw [hlook] at h; cases h
    | some tile =>
      rw [hlook] at h
      split at h
      · cases h
      · split at h
        · cases h
        · split at h
          · cases h
          · split at h
            · cases h
            · rename_i tl hrest
              split at h
              · cases h
              · rename_i tl2 hrest2
                cases h
                simp [ih tl2 hrest2]

theorem mapIdxCongr (l : List α) (f g : Nat → α → β)
    (h : ∀ i a, f i a = g i a) : l.mapIdx f = l.mapIdx g := by
  induction l generalizing f g with
  | nil => rfl
  | cons a t ih =>
    rw [List.mapIdx_cons, List.mapIdx_cons, h 0 a]
    rw [ih (fun i => f (i + 1)) (fun i => g (i + 1)) (fun i a => h (i + 1) a)]

theorem take_min_length (l : List Tile) (n : Nat) :
    l.take (min n l.length) = l.take n := by
  rcases le_total n l.length with h | h
  · rw [min_eq_left h]
  · rw [min_eq_right h, List.take_length, List.take_of_length_le h]

theorem drop_min_length (l : List Tile) (n : Nat) :
    l.drop (min n l.length) = l.drop n := by
  rcases le_total n l.length with h | h
  · rw [min_eq_left h]
  · rw [min_eq_right h, List.drop_length, List.drop_eq_nil_of_le h]

theorem draw_eq (l : List Tile) (n : Nat) :
    draw l n = (l.take n, l.drop n) := by
  unfold draw
  rw [take_min_length, drop_min_length]

theorem fillRacks_eq (players : List Player) :
    ∀ bag : List Tile,
      fillRacks players bag =
        (players.mapIdx (fun i p =>
            { p with rack := (bag.drop (RACK_SIZE * i)).take RACK_SIZE }),
         bag.drop (RACK_SIZE * players.length)) := by
  induction players with
  | nil => intro bag; simp [fillRacks]
  | cons p rest ih =>
    intro bag
    simp only [fillRacks, draw_eq, ih (bag.drop RACK_SIZE), List.mapIdx_cons,
      List.length_cons]
    rw [Prod.mk.injEq]
    constructor
    · simp only [Nat.mul_zero, List.drop_zero]
      congr 1
      apply mapIdxCongr
      intro i a
      rw [List.drop_drop]
      congr 2
      ring
    · rw [List.drop_drop]
      congr 1
      ring

theorem setConnectedAux_proj (l : List Player) (id : String) (c : Bool) :
    (setConnectedAux l id c).map (fun p => (p.id, p.rack, p.score)) =
      l.map (fun p => (p.id, p.rack, p.score)) := by
  induction l with
  | nil => rfl
  | cons p t ih =>
    simp only [setConnectedAux]
    split
    · simp [ih]
    · simp [ih]

theorem scoreStep_eq (layout : BonusLayout) (acc : Nat × Nat) (wt : WordTile) :
    scoreStep layout acc wt =
      (acc.1 + (if wt.isNew then
          claimTilePoints wt.tile * claimLetterMultiplier (bonusAt layout wt.row wt.col)
        else claimTilePoints wt.tile),
       acc.2 * (if wt.isNew then claimWordMultiplier (bonusAt layout wt.row wt.col)
        else 1)) := by
  unfold scoreStep claimTilePoints claimLetterMultiplier claimWordMultiplier
  cases hn : wt.isNew with
  | false => simp
  | true =>
    cases hb : bonusAt layout wt.row wt.col <;> simp

theorem scoreWordTiles_foldl (layout : BonusLayout) (tiles : List WordTile) :
    ∀ acc : Nat × Nat,
      tiles.foldl (scoreStep layout) acc =
        (acc.1 + (tiles.map fun wt =>
            if wt.isNew then
              claimTilePoints wt.tile *
                claimLetterMultiplier (bonusAt layout wt.row wt.col)
            else claimTilePoints wt.tile).sum,
         acc.2 * (tiles.map fun wt =>
            if wt.isNew then claimWordMultiplier (bonusAt layout wt.row wt.col)
            else 1).prod) := by
  induction tiles with
  | nil => intro acc; simp
  | cons wt rest ih =>
    intro acc
    simp only [List.foldl_cons, List.map_cons, List.sum_cons, List.prod_cons,
      scoreStep_eq, ih]
    rw [Prod.mk.injEq]
    constructor <;> ring

theorem scoreWordTiles_eq_claim (layout : BonusLayout) (wf : WordFound) :
    (scoreWordTiles layout wf.tiles).1 * (scoreWordTiles layout wf.tiles).2 =
      claimWordScore layout wf := by
  unfold scoreWordTiles claimWordScore
  rw [scoreWordTiles_foldl]
  simp

theorem scoreWords_foldl (layout : BonusLayout) (ws : List WordFound) :
    ∀ acc : List WordResult × Nat,
      ws.foldl (scoreWordsStep layout) acc =
        (acc.1 ++ ws.map (fun wf => ⟨wf.word, claimWordScore layout wf⟩),
         acc.2 + (ws.map (claimWordScore layout)).sum) := by
  induction ws with
  | nil => intro acc; simp
  | cons wf rest ih =>
    intro acc
    simp only [List.foldl_cons, List.map_cons, List.sum_cons, ih, scoreWordsStep,
      scoreWordTiles_eq_claim layout wf]
    rw [Prod.mk.injEq]
    constructor
    · simp
    · ring

theorem scoreWords_eq_claim (layout : BonusLayout) (ws : List WordFound) :
    scoreWords layout ws =
      (ws.map (fun wf => ⟨wf.word, claimWordScore layout wf⟩),
       (ws.map (claimWordScore layout)).sum) := by
  unfold scoreWords
  rw [scoreWords_foldl]
  simp

/-! ## Claim theorems -/

set_option maxRecDepth 100000

/-- C10: a freshly constructed TileBag contains exactly 112 tiles (the
sum of the frequency table's counts), among them exactly 2 zero-point
blanks, with pairwise-distinct identities 0 through 111 assigned
sequentially before shuffling; the shuffle only permutes them. -/
theorem C10_fresh_bag_contents :
    initTiles.length = 112 ∧
    initTiles.map Tile.id = List.range 112 ∧
    (initTiles.filter fun t => t.isBlank && t.points == 0).length = 2 ∧
    ∀ seed : List Nat, (TileBag.fresh seed).length = 112 ∧
      ((TileBag.fresh seed).map Tile.id).Perm (List.range 112) := by
  refine ⟨rfl, rfl, rfl, ?_⟩
  intro seed
  have hp : (TileBag.fresh seed).Perm initTiles := shufflePerm seed initTiles
  constructor
  · rw [hp.length_eq]
    rfl
  · have hm := hp.map Tile.id
    rw [(rfl : initTiles.map Tile.id = List.range 112)] at hm
    exact hm

/-- C8 (amended): `drawToFill` returns exactly
`min (max 0 (RACK_SIZE − currentRackSize)) (pool size)` tiles — the
claimed `max 0 (RACK_SIZE − currentRackSize)` only when the pool can
supply it. -/
theorem C8_drawToFill_count (bag : List Tile) (currentCount : Nat) :
    (drawToFill bag currentCount).1.length =
      min (RACK_SIZE - currentCount) bag.length := by
  simp only [drawToFill]
  split
  · rename_i h
    simp only [List.length_nil]
    have hc : RACK_SIZE ≤ currentCount := by omega
    omega
  · rename_i h
    rw [draw_eq]
    simp only [List.length_take]
    have ht : ((RACK_SIZE : Int) - (currentCount : Int)).toNat =
        RACK_SIZE - currentCount := by omega
    rw [ht]

/-- C8, counterexample to the claim as stated: on an empty pool and an
empty rack, `drawToFill` returns 0 tiles, not
`max 0 (RACK_SIZE − 0) = 7`. -/
theorem C8_counterexample :
    (drawToFill ([] : List Tile) 0).1.length = 0 ∧
    max 0 (RACK_SIZE - 0) = 7 ∧ (0 : Nat) ≠ 7 :=
  ⟨rfl, rfl, by decide⟩

/-- C3: evaluation of the conservation-violating play.  In the started
two-player game the pool, racks and board hold 112 tiles; the
duplicate-cell intent (tiles 1 and 2 both target (7,8)) passes
validation and commits, after which only 111 tiles remain — the claimed
invariant fails on the code. -/
theorem C3_duplicate_placement_destroys_tile :
    totalTiles gameStarted = 112 ∧
    (Game.playTiles dictII gameStarted "p1" dupPlacements).result?.isSome = true ∧
    totalTiles (Game.playTiles dictII gameStarted "p1" dupPlacements).state = 111 :=
  ⟨rfl, rfl, rfl⟩

/-- C4, counterexample to the claim as stated: after one pass the
consecutive-pass counter is 1; a successful exchange by the next player
then sets it to 0, not to its pre-exchange value 1. -/
theorem C4_counterexample :
    gamePassed.consecutivePasses = 1 ∧
    (Game.exchangeTiles [0] gamePassed "p2" [7]).result?.isSome = true ∧
    (Game.exchangeTiles [0] gamePassed "p2" [7]).state.consecutivePasses = 0 ∧
    (0 : Nat) ≠ 1 :=
  ⟨rfl, rfl, rfl, by decide⟩

/-- C5, counterexample to the claim as stated: on a non-first move, a
single-tile placement adjacent to an existing tile that forms a
dictionary word is accepted, not rejected. -/
theorem C5_counterexample :
    exceptOk? (validate dictII boardWithCenterTile
      [⟨7, 8, 0, none⟩] [loneTile] false) = true :=
  rfl

/-- C2, counterexample to the claim as stated: a successful 7-tile
(bingo) play returns turn total 64, while the sum of the formed words'
scores is 14 — the all-tiles bonus of 50 makes the two differ. -/
theorem C2_counterexample :
    bingoPlay.result?.map PlayResult.totalScore = some 64 ∧
    bingoPlay.result?.map (fun r => (r.words.map WordResult.score).sum) = some 14 ∧
    (64 : Nat) ≠ 14 :=
  ⟨rfl, rfl, by decide⟩

/-- C7, counterexample to the claim as stated: when the grace timer of
disconnected participant p2 fires during `playing`, the caller is
notified and p2 leaves the room's connection set, but p2 is NOT removed
from the game session. -/
theorem C7_counterexample :
    (Room.fireGraceTimer roomPlaying "p2").2 = true ∧
    ((Room.fireGraceTimer roomPlaying "p2").1.players.any fun p => p.id == "p2")
      = false ∧
    ((Room.fireGraceTimer roomPlaying "p2").1.game.players.any fun p => p.id == "p2")
      = true :=
  ⟨rfl, rfl, rfl⟩

/-- C1: every play, exchange or pass intent that fails with an error —
of any kind — leaves the entire session state (board, racks, pool,
scores, and everything else) exactly as it was: every throw site in the
source precedes the first mutation. -/
theorem C1_failed_intent_preserves_state (dict : String → Bool)
    (seed : List Nat) (g g' : Game) (pid : String)
    (placements : List TilePlacement) (tileIds : List Nat) (e : GameError) :
    (Game.playTiles dict g pid placements = .err e g' → g' = g) ∧
    (Game.exchangeTiles seed g pid tileIds = .err e g' → g' = g) ∧
    (Game.pass g pid = .err e g' → g' = g) := by
  refine ⟨?_, ?_, ?_⟩
  · intro h
    unfold Game.playTiles at h
    repeat' split at h
    all_goals cases h <;> rfl
  · intro h
    unfold Game.exchangeTiles at h
    repeat' split at h
    all_goals cases h <;> rfl
  · intro h
    unfold Game.pass at h
    repeat' split at h
    all_goals cases h <;> rfl

/-- C1 witness: three concrete failing intents (a lexical error on a
play, a rack error on an exchange, a turn error on a pass) each leave
the started game unchanged. -/
theorem C1_failed_intent_preserves_state_witness :
    (Game.playTiles (fun _ => false) gameStarted "p1"
        [⟨7, 7, 0, none⟩, ⟨7, 8, 1, none⟩] =
          .err (.unknownWord "いい") gameStarted ∧ gameStarted = gameStarted) ∧
    (Game.exchangeTiles [0] gameStarted "p1" [999] =
          .err .tileNotInRack gameStarted ∧ gameStarted = gameStarted) ∧
    (Game.pass gameStarted "p2" = .err .notYourTurn gameStarted ∧
      gameStarted = gameStarted) :=
  ⟨⟨rfl, (C1_failed_intent_preserves_state (fun _ => false) [0] gameStarted
      gameStarted "p1" [⟨7, 7, 0, none⟩, ⟨7, 8, 1, none⟩] [999]
      (.unknownWord "いい")).1 rfl⟩,
   ⟨rfl, (C1_failed_intent_preserves_state (fun _ => false) [0] gameStarted
      gameStarted "p1" [⟨7, 7, 0, none⟩, ⟨7, 8, 1, none⟩] [999]
      .tileNotInRack).2.1 rfl⟩,
   ⟨rfl, (C1_failed_intent_preserves_state (fun _ => false) [0] gameStarted
      gameStarted "p2" [⟨7, 7, 0, none⟩, ⟨7, 8, 1, none⟩] [999]
      .notYourTurn).2.2 rfl⟩⟩

/-- C4 (amended): after every successful exchange the consecutive-pass
counter is reset to 0 (not kept at its pre-exchange value), a zero-score
exchange turn record is appended, and the turn advances to the next
participant; phase and board are untouched. -/
theorem C4_exchange_resets_passes (seed : List Nat) (g g' : Game)
    (pid : String) (tileIds : List Nat) (player : Player)
    (hp : g.players.get? g.currentPlayerIndex = some player)
    (h : Game.exchangeTiles seed g pid tileIds = .ok g' ()) :
    g'.consecutivePasses = 0 ∧
    g'.turnHistory = g.turnHistory ++
      [TurnRecord.mk player.id player.name .exchange none 0] ∧
    g'.currentPlayerIndex = (g.currentPlayerIndex + 1) % g.players.length ∧
    g'.phase = g.phase ∧ g'.board = g.board := by
  unfold Game.exchangeTiles at h
  cases hA : g.assertTurn pid with
  | some e => simp only [hA] at h; cases h
  | none =>
    have hphase : g.phase = .playing := by
      by_contra hph
      simp [Game.assertTurn, hph] at hA
    simp only [hA] at h
    split at h
    · cases h
    · split at h
      · cases h
      · rw [hp] at h
        repeat' split at h
        all_goals cases h
        all_goals unfold Game.advanceTurn
        all_goals simp_all [hphase]

/-- C4 witness: the concrete successful exchange by p2 (after p1's
pass) resets the counter to zero. -/
theorem C4_exchange_resets_passes_witness :
    gamePassed.players.get? gamePassed.currentPlayerIndex = some player2 ∧
    Game.exchangeTiles [0] gamePassed "p2" [7] =
      .ok (Game.exchangeTiles [0] gamePassed "p2" [7]).state () ∧
    (Game.exchangeTiles [0] gamePassed "p2" [7]).state.consecutivePasses = 0 :=
  ⟨rfl, rfl,
   (C4_exchange_resets_passes [0] gamePassed
      (Game.exchangeTiles [0] gamePassed "p2" [7]).state "p2" [7] player2
      rfl rfl).1⟩

/-- C6: on the session's transition to `finished` (`endGame`), every
participant's score decreases by exactly the sum of their remaining
rack's base point values, with blanks contributing zero (every blank in
circulation carries zero points); no other field of the session — and
no other part of any score — changes. -/
theorem C6_end_game_adjustment (g : Game)
    (hblank : ∀ p ∈ g.players, ∀ t ∈ p.rack, t.isBlank = true → t.points = 0) :
    g.endGame.players = g.players.map (fun p =>
      { p with score := p.score -
          (p.rack.map fun t =>
            if t.isBlank then (0 : Int) else (t.points : Int)).sum }) ∧
    g.endGame.phase = .finished ∧
    g.endGame.board = g.board ∧
    g.endGame.tileBag = g.tileBag ∧
    g.endGame.currentPlayerIndex = g.currentPlayerIndex ∧
    g.endGame.turnHistory = g.turnHistory ∧
    g.endGame.consecutivePasses = g.consecutivePasses := by
  refine ⟨?_, rfl, rfl, rfl, rfl, rfl, rfl⟩
  unfold Game.endGame
  simp only
  apply List.map_congr_left
  intro p hp
  congr 1
  have hmap : (p.rack.map fun t =>
      if t.isBlank then (0 : Int) else (t.points : Int)) =
        p.rack.map (fun t => (t.points : Int)) := by
    apply List.map_congr_left
    intro t ht
    by_cases hb : t.isBlank
    · rw [if_pos hb, hblank p hp t ht hb]
      simp
    · rw [if_neg hb]
  rw [hmap]

/-- C6 witness: applying the final adjustment to the concrete started
game (racks drawn from the fresh bag, where every blank is worth zero)
yields exactly the per-player deductions. -/
theorem C6_end_game_adjustment_witness :
    (∀ p ∈ gameStarted.players, ∀ t ∈ p.rack, t.isBlank = true → t.points = 0) ∧
    gameStarted.endGame.players = gameStarted.players.map (fun p =>
      { p with score := p.score -
          (p.rack.map fun t =>
            if t.isBlank then (0 : Int) else (t.points : Int)).sum }) :=
  ⟨by decide, (C6_end_game_adjustment gameStarted (by decide)).1⟩

/-- C9: `start` throws exactly when the session has fewer than two
participants; it performs no phase check, so with two or more
participants it succeeds in any phase — including `playing` or
`finished` — and replaces every participant's rack with `RACK_SIZE`
tiles freshly drawn from the pool in player order. -/
theorem C9_start_no_phase_check (g : Game) :
    (g.players.length < 2 → Game.start g = .err .tooFewPlayers g) ∧
    (2 ≤ g.players.length →
      Game.start g = .ok { g with
        phase := .playing
        players := g.players.mapIdx (fun i p =>
          { p with rack := (g.tileBag.drop (RACK_SIZE * i)).take RACK_SIZE })
        tileBag := g.tileBag.drop (RACK_SIZE * g.players.length) } ()) := by
  constructor
  · intro hlt
    unfold Game.start
    rw [if_pos hlt]
  · intro hge
    unfold Game.start
    rw [if_neg (by omega)]
    simp only [fillRacks_eq]

/-- C9 witness: starting the one-player session fails; starting the
already-`playing` two-player session succeeds and redraws both racks. -/
theorem C9_start_no_phase_check_witness :
    (gameOnePlayer.players.length < 2 ∧
      Game.start gameOnePlayer = .err .tooFewPlayers gameOnePlayer) ∧
    (2 ≤ gameStarted.players.length ∧ gameStarted.phase = .playing ∧
      Game.start gameStarted = .ok { gameStarted with
        phase := .playing
        players := gameStarted.players.mapIdx (fun i p =>
          { p with rack :=
              (gameStarted.tileBag.drop (RACK_SIZE * i)).take RACK_SIZE })
        tileBag := gameStarted.tileBag.drop
          (RACK_SIZE * gameStarted.players.length) } ()) :=
  ⟨⟨by decide, (C9_start_no_phase_check gameOnePlayer).1 (by decide)⟩,
   ⟨by decide, rfl, (C9_start_no_phase_check gameStarted).2 (by decide)⟩⟩

theorem reconnect_preserves_game (r : Room) (id : String) :
    (r.reconnectPlayer id).1.game.players.map (fun p => (p.id, p.rack, p.score)) =
      r.game.players.map (fun p => (p.id, p.rack, p.score)) ∧
    (r.reconnectPlayer id).1.game.currentPlayerIndex =
      r.game.currentPlayerIndex := by
  unfold Room.reconnectPlayer
  cases hf : r.players.find? (fun p => p.id == id) with
  | none => exact ⟨rfl, rfl⟩
  | some q =>
    refine ⟨?_, rfl⟩
    simp [Game.setConnected, setConnectedAux_proj]

theorem handleDisconnect_preserves_game (r : Room) (id : String)
    (hph : r.game.phase = .playing) :
    (r.handleDisconnect id).1.game.players.map (fun p => (p.id, p.rack, p.score)) =
      r.game.players.map (fun p => (p.id, p.rack, p.score)) ∧
    (r.handleDisconnect id).1.game.currentPlayerIndex =
      r.game.currentPlayerIndex := by
  unfold Room.handleDisconnect
  cases hf : r.players.find? (fun p => p.id == id) with
  | none => exact ⟨rfl, rfl⟩
  | some q =>
    have hph' : (r.game.setConnected id false).phase = GamePhase.playing := hph
    simp only [hph', if_pos]
    refine ⟨?_, rfl⟩
    simp [Game.setConnected, setConnectedAux_proj]

/-- C7 (amended): a participant who reconnects within the grace period
keeps their pre-disconnect rack, score and turn position; when the
grace timer fires during `playing`, the participant is removed from the
room's connection set and the caller is notified, but their game-session
seat (rack, score, turn position) stays intact — session removal only
happens in the `waiting` phase. -/
theorem C7_reconnection_lifecycle (room : Room) (id : String)
    (hph : room.game.phase = .playing) :
    (((room.handleDisconnect id).1.reconnectPlayer id).1.game.players.map
        (fun p => (p.id, p.rack, p.score)) =
      room.game.players.map (fun p => (p.id, p.rack, p.score)) ∧
     ((room.handleDisconnect id).1.reconnectPlayer id).1.game.currentPlayerIndex =
      room.game.currentPlayerIndex) ∧
    Room.fireGraceTimer room id =
      ({ room with players := room.players.filter fun p => !(p.id == id) },
       true) := by
  refine ⟨⟨?_, ?_⟩, ?_⟩
  · rw [(reconnect_preserves_game (room.handleDisconnect id).1 id).1,
      (handleDisconnect_preserves_game room id hph).1]
  · rw [(reconnect_preserves_game (room.handleDisconnect id).1 id).2,
      (handleDisconnect_preserves_game room id hph).2]
  · unfold Room.fireGraceTimer Room.removePlayer
    rw [if_neg (by rw [hph]; intro hc; cases hc)]

/-- C7 witness: in the concrete playing room, disconnect + reconnect
keeps p2's rack, score and turn position, and a firing grace timer
removes p2 from the room only, notifying the caller. -/
theorem C7_reconnection_lifecycle_witness :
    roomPlaying.game.phase = .playing ∧
    ((roomPlaying.handleDisconnect "p2").1.reconnectPlayer "p2").1.game.players.map
        (fun p => (p.id, p.rack, p.score)) =
      roomPlaying.game.players.map (fun p => (p.id, p.rack, p.score)) ∧
    Room.fireGraceTimer roomPlaying "p2" =
      ({ roomPlaying with
          players := roomPlaying.players.filter fun p => !(p.id == "p2") },
       true) :=
  ⟨rfl, (C7_reconnection_lifecycle roomPlaying "p2" rfl).1.1,
   (C7_reconnection_lifecycle roomPlaying "p2" rfl).2⟩

theorem moveCheck_single_first (board : Board) (pt : PlacedTile) (r : Unit) :
    moveCheck board [pt] true ≠ .ok r := by
  intro h
  simp only [moveCheck] at h
  rw [if_pos trivial] at h
  rw [if_pos (show ([pt] : List PlacedTile).length < 2 by simp)] at h
  split at h
  · cases h
  · cases h

/-- C5 (amended): when the first-move flag is set, `validate` rejects
every placement set consisting of exactly one tile (the ≥2-tile
first-move requirement, or an earlier check, always fails); on
non-first moves a lone tile adjacent to an existing tile can be
accepted — see the counterexample. -/
theorem C5_first_move_single_tile_rejected (dict : String → Bool)
    (board : Board) (rackTiles : List Tile) (p : TilePlacement) :
    exceptOk? (validate dict board [p] rackTiles true) = false := by
  cases hv : validate dict board [p] rackTiles true with
  | error e => rfl
  | ok ws =>
    exfalso
    unfold validate at hv
    rw [if_neg (by simp)] at hv
    cases hres : resolvePlacements board rackTiles [p] with
    | error e => rw [hres] at hv; cases hv
    | ok l =>
      have hlen := resolvePlacements_length board rackTiles [p] l hres
      rw [hres] at hv
      have hex : ∃ pt, l = [pt] := by
        cases l with
        | nil => simp at hlen
        | cons a t =>
          cases t with
          | nil => exact ⟨a, rfl⟩
          | cons b t2 => simp at hlen
      obtain ⟨pt, rfl⟩ := hex
      simp only [List.map_cons, List.map_nil, List.dedup_cons_of_not_mem,
        List.not_mem_nil, not_false_iff, List.dedup_nil, List.length_singleton,
        eq_self_iff_true, not_true, false_and, if_false, if_true,
        List.head?_cons, List.foldr_cons, List.foldr_nil] at hv
      cases hmc : moveCheck board [pt] true with
      | ok u => exact absurd hmc (moveCheck_single_first board pt u)
      | error e =>
        rw [hmc] at hv
        split at hv <;> cases hv

/-- C2 (amended): for every successful play, each formed word is scored
exactly as claimed — a newly placed tile's points are scaled by its
cell's letter multiplier, a pre-existing tile contributes raw points,
word multipliers (double for DW and the start cell, triple for TW, from
newly covered cells only) accumulate multiplicatively, and the word's
sum is multiplied by that accumulated multiplier — and the turn total
is the sum of the words' scores PLUS the fixed all-tiles bonus when the
placement count equals the rack capacity. -/
theorem C2_play_score_formula (dict : String → Bool) (g g' : Game)
    (pid : String) (placements : List TilePlacement) (player : Player)
    (ws : List WordFound) (res : PlayResult)
    (hp : g.players.get? g.currentPlayerIndex = some player)
    (hv : validate dict g.board placements player.rack g.isFirstMove = .ok ws)
    (h : Game.playTiles dict g pid placements = .ok g' res) :
    res.totalScore = (ws.map (claimWordScore g.bonusLayout)).sum +
      (if placements.length = RACK_SIZE then BINGO_BONUS else 0) ∧
    res.words = ws.map (fun wf => ⟨wf.word, claimWordScore g.bonusLayout wf⟩) := by
  unfold Game.playTiles at h
  cases hA : g.assertTurn pid with
  | some e => simp only [hA] at h; cases h
  | none =>
    simp only [hA, hp, hv] at h
    cases h
    constructor <;> simp [scoreWords_eq_claim]

/-- C2 witness: the scoring equation holds on the concrete successful
bingo play (total 64 = word sum 14 + bonus 50). -/
theorem C2_play_score_formula_witness :
    gameStarted.players.get? gameStarted.currentPlayerIndex = some player1 ∧
    validate dictBingo gameStarted.board bingoPlacements player1.rack
      gameStarted.isFirstMove = .ok bingoWords ∧
    Game.playTiles dictBingo gameStarted "p1" bingoPlacements =
      .ok bingoPlay.state bingoResult ∧
    bingoResult.totalScore =
      (bingoWords.map (claimWordScore gameStarted.bonusLayout)).sum +
        (if bingoPlacements.length = RACK_SIZE then BINGO_BONUS else 0) :=
  ⟨rfl, rfl, rfl,
   (C2_play_score_formula dictBingo gameStarted bingoPlay.state "p1"
      bingoPlacements player1 bingoWords bingoResult rfl rfl rfl).1⟩
